import Mathlib

set_option maxRecDepth 100000

/-!
Verification of the MedLens upload-and-summarize pipeline (src/app.py).

Python strings are modelled as `List Char` (a Python `str` is a sequence of
code points); raw uploaded bytes are modelled as `List Nat` (each < 256) and
decoded code points as `List Nat`.  Fallible calls into optional third-party
libraries (pdfplumber, PIL/pytesseract, the google-genai client) are modelled
as `Except`/`Option`-valued inputs: an `Except.error e` input corresponds to
the library call raising an exception whose rendered message is `e`.
-/

/-- ASCII whitespace test, modelling Python's default `str.strip()` /
`str.isspace()` character class on the ASCII range (the only characters the
templates in src/app.py place at the string margins). -/
def pyIsSpace (c : Char) : Bool :=
  c == ' ' || c == '\t' || c == '\n' || c == '\r' || c == '\x0b' || c == '\x0c'

/-- ASCII case folding for one character, modelling Python's `str.lower()`
on the ASCII range (all inputs the pipeline compares are ASCII). -/
def asciiLowerChar (c : Char) : Char :=
  if 'A' ≤ c ∧ c ≤ 'Z' then Char.ofNat (c.toNat + 32) else c

/-- Python `str.lower()` (ASCII range). -/
def asciiLower (s : List Char) : List Char := s.map asciiLowerChar

/-- Left part of Python `str.strip()`: drop leading whitespace. -/
def stripL (l : List Char) : List Char := l.dropWhile pyIsSpace

/-- Right part of Python `str.strip()`: drop trailing whitespace. -/
def stripR (l : List Char) : List Char := (l.reverse.dropWhile pyIsSpace).reverse

/-- Python `str.strip()`: drop whitespace from both ends. -/
def pyStrip (l : List Char) : List Char := stripL (stripR l)

/-- Python's substring test `pat in s`: does `pat` occur contiguously in `s`? -/
def occursB (pat : List Char) : List Char → Bool
  | [] => pat.isEmpty
  | c :: rest => List.isPrefixOf pat (c :: rest) || occursB pat rest

/-- Python `s.endswith(suf)`. -/
def pyEndswith (suf s : List Char) : Bool := List.isSuffixOf suf s

/-- The test `lang.lower().startswith("h")` from `build_prompt`
(src/app.py line 198/210). -/
def langIsHindi (lang : List Char) : Bool :=
  List.isPrefixOf "h".data (asciiLower lang)

/-- The hard character cut `text[:30000]` applied by `build_prompt`
(src/app.py lines 202 and 214). -/
def truncate_report (text : List Char) : List Char := text.take 30000

/-- The Hindi translation instruction interpolated by `build_prompt` when
`lang.lower().startswith("h")` (src/app.py lines 198 and 210). -/
def hindiClause : List Char :=
  "Translate the summary into hindi such that the translation is not literal translation of the summary, but refined version in hindi having indian hindi context. Also, if there is any reference of organ or disease in summary, add english names of it in parantheses in your summary.".data

/-- The fixed part of the "Standard MedLens" prompt template that precedes the
optional translation clause (src/app.py lines 187-197). -/
def stdHeader : List Char :=
  "\nYou are MedLens, an AI medical recommendation assistant for a health-tech platform.\nYour role is to provide safe, general, and practical lifestyle guidance based on a user’s medical report summary or extracted health metrics. Understand the Context:Identify the key findings or health parameters that are above, below, or outside the normal range.\nFocus only on significant trends or imbalances.\nGenerate Two Types of Recommendations:\nA. Dietary & Lifestyle Recommendations:Suggest general, practical changes related to food, hydration, physical activity, and daily habits. Focus only on natural, everyday adjustments.\nB. Doctor Visit Recommendations:Advise when a doctor consultation might be appropriate.\nKeep tone reassuring and non-urgent, unless the context clearly suggests concern.\nYour outputs are meant for informational and preventive purposes only, not for diagnosis or treatment.\nAlways end with this disclaimer:\n\"These insights are for informational purposes only. MedLens does not replace professional medical consultation. Always seek advice from a qualified healthcare provider for diagnosis, treatment, or any medical concern.\"\n".data

/-- Doctor-Funshine template: the fixed text before the interpolated persona
(src/app.py line 206). -/
def funHead : List Char := "\nYou are ".data

/-- Doctor-Funshine template: the fixed text between the persona and the
optional translation clause (src/app.py lines 206-209). -/
def funTail : List Char :=
  " — a witty, warm, and positive doctor persona.\nSummarize the report in a fun and friendly way.\nBe lighthearted yet accurate; use analogies and humor.\nKeep it short (4–6 lines). Avoid alarming tone.\n".data

/-- Template text between the translation clause and the filename
(src/app.py lines 199 and 211). -/
def nameLit : List Char := "\nReport Name: ".data

/-- Template text between the filename and the truncated report text
(src/app.py lines 200-201 and 212-213). -/
def textLit : List Char := "\n\nReport Text:\n".data

/-- The newline closing the triple-quoted templates (src/app.py
lines 203 and 215). -/
def nlLit : List Char := "\n".data

/-- The mode string selecting the standard template (src/app.py line 186). -/
def stdMode : List Char := "Standard MedLens".data

/-- `build_prompt(text, filename, lang, tone, mode)` from src/app.py
lines 185-216: render one of two f-string templates (chosen by
`mode == "Standard MedLens"`), interpolating the translation clause when
`lang.lower().startswith("h")`, the filename, and `text[:30000]`, and
finally apply `.strip()` to the rendered string. -/
def build_prompt (text filename lang tone mode : List Char) : List Char :=
  let clause := if langIsHindi lang then hindiClause else []
  let raw :=
    if mode = stdMode then
      stdHeader ++ clause ++ nameLit ++ filename ++ textLit ++
        truncate_report text ++ nlLit
    else
      funHead ++ tone ++ funTail ++ clause ++ nameLit ++ filename ++ textLit ++
        truncate_report text ++ nlLit
  pyStrip raw

/-- A continuation byte of a UTF-8 sequence: `0x80 ≤ b < 0xC0`. -/
def isCont (b : Nat) : Prop := 0x80 ≤ b ∧ b < 0xC0

instance (b : Nat) : Decidable (isCont b) := by unfold isCont; infer_instance

/-- Admissible second byte of a three-byte UTF-8 sequence with lead byte `b0`
(CPython's decoder: lead `0xE0` needs `0xA0-0xBF`, lead `0xED` needs
`0x80-0x9F` to exclude surrogates, other leads need `0x80-0xBF`). -/
def okSecond3 (b0 b1 : Nat) : Prop :=
  (b0 = 0xE0 ∧ 0xA0 ≤ b1 ∧ b1 < 0xC0) ∨
  (b0 = 0xED ∧ 0x80 ≤ b1 ∧ b1 < 0xA0) ∨
  (b0 ≠ 0xE0 ∧ b0 ≠ 0xED ∧ 0x80 ≤ b1 ∧ b1 < 0xC0)

instance (b0 b1 : Nat) : Decidable (okSecond3 b0 b1) := by
  unfold okSecond3; infer_instance

/-- Admissible second byte of a four-byte UTF-8 sequence with lead byte `b0`
(CPython's decoder: lead `0xF0` needs `0x90-0xBF`, lead `0xF4` needs
`0x80-0x8F` to stay below `0x110000`, other leads need `0x80-0xBF`). -/
def okSecond4 (b0 b1 : Nat) : Prop :=
  (b0 = 0xF0 ∧ 0x90 ≤ b1 ∧ b1 < 0xC0) ∨
  (b0 = 0xF4 ∧ 0x80 ≤ b1 ∧ b1 < 0x90) ∨
  (b0 ≠ 0xF0 ∧ b0 ≠ 0xF4 ∧ 0x80 ≤ b1 ∧ b1 < 0xC0)

instance (b0 b1 : Nat) : Decidable (okSecond4 b0 b1) := by
  unfold okSecond4; infer_instance

/-- CPython's UTF-8 decoder with an error handler, parameterized by the code
points `err` emitted for one error event.  `err = []` is `errors="ignore"`
(the handler used by src/app.py line 239); `err = [0xFFFD]` is
`errors="replace"`.  Each error event consumes the maximal valid subpart of
the offending sequence (at least the offending lead byte) and decoding
resumes at the next byte, exactly as CPython's decoder does. -/
def utf8DecodeP (err : List Nat) : List Nat → List Nat
  | [] => []
  | b0 :: r0 =>
    if b0 < 0x80 then b0 :: utf8DecodeP err r0
    else if b0 < 0xC2 then err ++ utf8DecodeP err r0
    else if b0 < 0xE0 then
      match r0 with
      | [] => err
      | b1 :: r1 =>
        if isCont b1 then
          ((b0 - 0xC0) * 0x40 + (b1 - 0x80)) :: utf8DecodeP err r1
        else err ++ utf8DecodeP err (b1 :: r1)
    else if b0 < 0xF0 then
      match r0 with
      | [] => err
      | b1 :: r1 =>
        if okSecond3 b0 b1 then
          match r1 with
          | [] => err
          | b2 :: r2 =>
            if isCont b2 then
              ((b0 - 0xE0) * 0x1000 + (b1 - 0x80) * 0x40 + (b2 - 0x80)) ::
                utf8DecodeP err r2
            else err ++ utf8DecodeP err (b2 :: r2)
        else err ++ utf8DecodeP err (b1 :: r1)
    else if b0 < 0xF5 then
      match r0 with
      | [] => err
      | b1 :: r1 =>
        if okSecond4 b0 b1 then
          match r1 with
          | [] => err
          | b2 :: r2 =>
            if isCont b2 then
              match r2 with
              | [] => err
              | b3 :: r3 =>
                if isCont b3 then
                  ((b0 - 0xF0) * 0x40000 + (b1 - 0x80) * 0x1000 +
                    (b2 - 0x80) * 0x40 + (b3 - 0x80)) :: utf8DecodeP err r3
                else err ++ utf8DecodeP err (b3 :: r3)
            else err ++ utf8DecodeP err (b2 :: r2)
        else err ++ utf8DecodeP err (b1 :: r1)
    else err ++ utf8DecodeP err r0
termination_by bs => bs.length
decreasing_by all_goals (simp only [List.length_cons]; omega)

/-- `bytes.decode("utf-8", errors="ignore")` (src/app.py line 239):
undecodable byte sequences are dropped. -/
def pyDecodeIgnore (bs : List Nat) : List Nat := utf8DecodeP [] bs

/-- `bytes.decode("utf-8", errors="replace")`: undecodable byte sequences are
replaced by U+FFFD.  This is the behaviour the spec's words describe
("replacing undecodable sequences"); it is used only to compare against the
source's `errors="ignore"`. -/
def pyDecodeReplace (bs : List Nat) : List Nat := utf8DecodeP [0xFFFD] bs

/-- A Unicode scalar value: the code points a Python `str` produced by UTF-8
decoding can contain. -/
def validScalar (c : Nat) : Prop := c < 0xD800 ∨ (0xE000 ≤ c ∧ c < 0x110000)

instance (c : Nat) : Decidable (validScalar c) := by unfold validScalar; infer_instance

/-- UTF-8 encoding of one scalar value. -/
def utf8EncodeChar (c : Nat) : List Nat :=
  if c < 0x80 then [c]
  else if c < 0x800 then [0xC0 + c / 0x40, 0x80 + c % 0x40]
  else if c < 0x10000 then
    [0xE0 + c / 0x1000, 0x80 + (c / 0x40) % 0x40, 0x80 + c % 0x40]
  else
    [0xF0 + c / 0x40000, 0x80 + (c / 0x1000) % 0x40, 0x80 + (c / 0x40) % 0x40,
      0x80 + c % 0x40]

/-- UTF-8 encoding of a sequence of scalar values (Python `s.encode("utf-8")`). -/
def utf8Encode : List Nat → List Nat
  | [] => []
  | c :: cs => utf8EncodeChar c ++ utf8Encode cs

/-- The three branches of the upload dispatch (src/app.py lines 236-241). -/
inductive FileKind
  | pdf
  | txt
  | image
deriving DecidableEq

/-- The upload dispatch of src/app.py lines 236-241: `fname.endswith(".pdf")`
routes to PDF extraction, else `fname.endswith(".txt")` routes to UTF-8
decoding, anything else routes to image OCR. -/
def route (fname : List Char) : FileKind :=
  if pyEndswith ".pdf".data fname then FileKind.pdf
  else if pyEndswith ".txt".data fname then FileKind.txt
  else FileKind.image

/-- Code points of a modelled Python string. -/
def strCodes (s : List Char) : List Nat := s.map Char.toNat

/-- `extract_text_from_pdf_bytes` (src/app.py lines 162-173).  `deps` is
whether the optional-import block succeeded (one flag: a single
`try/except ImportError` at lines 12-19 sets all the optional modules to
`None` together).  `pdfOut` is the outcome of the `pdfplumber` block: an
exception message, or the list of `page.extract_text()` results (`none` for a
page with no text layer; the code maps it to `""` via `or ""`). -/
def extract_text_from_pdf_bytes (deps : Bool)
    (pdfOut : Except (List Char) (List (Option (List Char)))) : List Char :=
  if !deps then "[pdfplumber missing]".data
  else
    match pdfOut with
    | Except.error e => "[PDF extraction error: ".data ++ e ++ "]".data
    | Except.ok pages =>
      let joined :=
        pyStrip (List.intercalate "\n\n".data (pages.map (fun p => p.getD [])))
      if joined = [] then "[No readable text]".data else joined

/-- `extract_text_from_image_bytes` (src/app.py lines 175-183).  `ocrOut` is
the outcome of the `PIL.Image.open` + `pytesseract.image_to_string` block: an
exception message, or the recognized text. -/
def extract_text_from_image_bytes (deps : Bool)
    (ocrOut : Except (List Char) (List Char)) : List Char :=
  if !deps then "[OCR not available]".data
  else
    match ocrOut with
    | Except.error e => "[Image OCR error: ".data ++ e ++ "]".data
    | Except.ok t => if pyStrip t = [] then "[No readable text detected]".data
                     else pyStrip t

/-- The extraction step of the upload handler (src/app.py lines 234-241):
dispatch on the filename and produce the extracted text (as code points;
the `.txt` branch is `data.decode("utf-8", errors="ignore")`). -/
def extract (fname : List Char) (deps : Bool)
    (pdfOut : Except (List Char) (List (Option (List Char))))
    (ocrOut : Except (List Char) (List Char)) (data : List Nat) : List Nat :=
  match route fname with
  | FileKind.pdf => strCodes (extract_text_from_pdf_bytes deps pdfOut)
  | FileKind.txt => pyDecodeIgnore data
  | FileKind.image => strCodes (extract_text_from_image_bytes deps ocrOut)

/-- One element of `response.candidates[0].content.parts` in the google-genai
response shape consumed by `call_gemini`.  `text = none` models the `text`
attribute being absent (`hasattr(parts[0], "text")` false). -/
structure GeminiPart where
  text : Option (List Char)

/-- `candidate.content` in the google-genai response shape. -/
structure GeminiContent where
  parts : List GeminiPart

/-- One element of `response.candidates`. -/
structure GeminiCandidate where
  content : GeminiContent

/-- The google-genai response shape consumed by `call_gemini`: an optional
direct `text` field and a list of candidates.  `text = none` models the
attribute being absent. -/
structure GeminiResponse where
  text : Option (List Char)
  candidates : List GeminiCandidate

/-- Python truthiness of the optional string field `response.text`
(`hasattr(response, "text") and response.text`). -/
def truthyText : Option (List Char) → Bool
  | some t => !t.isEmpty
  | none => false

/-- `call_gemini(prompt)` from src/app.py lines 218-230.  `outcome` is what
the remote call `client.models.generate_content(...)` did for this prompt:
raised an exception with message `e`, or returned a response value.  The whole
body sits in one `try/except`, so every branch returns a string. -/
def call_gemini (prompt : List Char)
    (outcome : Except (List Char) GeminiResponse) : List Char :=
  match outcome with
  | Except.error e => "[Gemini Error: ".data ++ e ++ "]".data
  | Except.ok r =>
    if truthyText r.text then r.text.getD []
    else
      match r.candidates with
      | [] => "[No response from Gemini]".data
      | cand :: _ =>
        match cand.content.parts with
        | [] => "[No response from Gemini]".data
        | part :: _ =>
          match part.text with
          | some t => t
          | none => "[No response from Gemini]".data

/-- Modelled from the spec: the Safety Flagger keyword set of §4.2.  The
Safety Flagger is part of this repository's pipeline but is not present in
the iteration under src/ (src/app.py has no `flag` function), so its keyword
configuration constant is taken from the spec's words. -/
def keywords : List (List Char) :=
  ["urgent".data, "emergency".data, "acute".data, "critical".data,
    "bleeding".data, "fracture".data, "stroke".data, "infarct".data]

/-- Modelled from the spec: `flag(text)` of §4.2 — a case-insensitive
substring search of the extracted text against the fixed keyword set.  The
function is absent from src/app.py, so it is modelled from the spec's words:
lower-case the text and test each (lower-case) keyword with Python's `in`. -/
def flag (text : List Char) : Bool :=
  keywords.any (fun k => occursB k (asciiLower text))

/-- Modelled from the spec: the prompt built for a non-primary summary
variant (clinician note, next steps).  The variant follow-up buttons are part
of this repository's other iterations but not of src/app.py, so the builder
is taken from the spec's words (§4.3): append an additional instruction
suffix to the already-built primary prompt. -/
def build_variant_prompt (text filename lang tone mode suffix : List Char) :
    List Char :=
  build_prompt text filename lang tone mode ++ suffix

/-- Modelled from the spec: a non-primary variant re-invokes the
Summarization Client on the freshly built variant prompt for the same
extracted text (§2, §4.3); `outcome` is that independent remote call. -/
def summarize_variant (text filename lang tone mode suffix : List Char)
    (outcome : Except (List Char) GeminiResponse) : List Char :=
  call_gemini (build_variant_prompt text filename lang tone mode suffix) outcome

lemma within_of_pre {α : Type} {l₁ l₂ : List α} (h : l₁ <+: l₂) : l₁ <:+: l₂ := by
  obtain ⟨t, ht⟩ := h
  exact ⟨[], t, by simp [ht]⟩

lemma within_of_suf {α : Type} {l₁ l₂ : List α} (h : l₁ <:+ l₂) : l₁ <:+: l₂ := by
  obtain ⟨s, hs⟩ := h
  exact ⟨s, [], by simp [hs]⟩

/-- Correctness of the Python substring test: `occursB pat s` holds exactly
when `pat` is a contiguous segment of `s`. -/
lemma occursB_correct (pat s : List Char) : occursB pat s = true ↔ pat <:+: s := by
  induction s with
  | nil => simp [occursB, List.isEmpty_iff]
  | cons c rest ih => simp [occursB, ih, List.infix_cons_iff]

lemma dropWhile_ne_nil_of_exists {α : Type} {p : α → Bool} {l : List α}
    (h : ∃ x ∈ l, p x = false) : l.dropWhile p ≠ [] := by
  induction l with
  | nil => simp at h
  | cons a l ih =>
    rcases h with ⟨x, hx, hpx⟩
    rw [List.dropWhile_cons]
    rcases List.mem_cons.mp hx with rfl | hxl
    · simp [hpx]
    · by_cases hpa : p a = true
      · simpa [hpa] using ih ⟨x, hxl, hpx⟩
      · simp [hpa]

lemma stripL_append {a b : List Char} (h : ∃ x ∈ a, pyIsSpace x = false) :
    stripL (a ++ b) = stripL a ++ b := by
  have hne := dropWhile_ne_nil_of_exists h
  unfold stripL
  rw [List.dropWhile_append]
  simp [List.isEmpty_iff, hne]

lemma stripR_append {a b : List Char} (h : ∃ x ∈ b, pyIsSpace x = false) :
    stripR (a ++ b) = a ++ stripR b := by
  have h' : ∃ x ∈ b.reverse, pyIsSpace x = false := by simpa using h
  have hne := dropWhile_ne_nil_of_exists h'
  unfold stripR
  rw [List.reverse_append, List.dropWhile_append]
  simp [List.isEmpty_iff, hne]

lemma stripR_append_ws {a b : List Char} (h : ∀ x ∈ b, pyIsSpace x = true) :
    stripR (a ++ b) = stripR a := by
  unfold stripR
  rw [List.reverse_append, List.dropWhile_append_of_pos (by simpa using h)]

lemma stripL_suffix (m : List Char) : stripL m <:+ m :=
  List.dropWhile_suffix pyIsSpace

lemma stripR_pre (m : List Char) : stripR m <+: m := by
  have h : m.reverse.dropWhile pyIsSpace <:+ m.reverse :=
    List.dropWhile_suffix pyIsSpace
  have h2 := h.reverse
  simpa [stripR] using h2

lemma pyStrip_within (l : List Char) : pyStrip l <:+: l :=
  List.IsInfix.trans (within_of_suf (stripL_suffix (stripR l)))
    (within_of_pre (stripR_pre l))

lemma stripL_head_not_ws {l : List Char} {c : Char}
    (h : (stripL l).head? = some c) : pyIsSpace c = false := by
  have hd := List.head?_dropWhile_not pyIsSpace l
  unfold stripL at h
  rw [h] at hd
  exact hd

lemma stripR_getLast_not_ws {l : List Char} {c : Char}
    (h : (stripR l).getLast? = some c) : pyIsSpace c = false := by
  have hd := List.head?_dropWhile_not pyIsSpace l.reverse
  unfold stripR at h
  rw [List.getLast?_reverse] at h
  rw [h] at hd
  exact hd

lemma pyStrip_head_not_ws {l : List Char} {c : Char}
    (h : (pyStrip l).head? = some c) : pyIsSpace c = false :=
  stripL_head_not_ws h

lemma pyStrip_getLast_not_ws {l : List Char} {c : Char}
    (h : (pyStrip l).getLast? = some c) : pyIsSpace c = false := by
  obtain ⟨u, hu⟩ := stripL_suffix (stripR l)
  have hne : stripL (stripR l) ≠ [] := by
    intro hnil
    rw [pyStrip, hnil] at h
    simp at h
  have hsl : (stripR l).getLast? = some c := by
    rw [← hu, List.getLast?_append_of_ne_nil _ hne]
    exact h
  exact stripR_getLast_not_ws hsl

/-- Where a contiguous segment of an append can sit: inside the left part,
inside the right part, or straddling the boundary as a nonempty suffix of the
left part glued to a nonempty prefix of the right part. -/
lemma within_append_split {α : Type} {p a b : List α} (h : p <:+: a ++ b) :
    p <:+: a ∨ p <:+: b ∨
      ∃ s t, s ++ t = p ∧ s ≠ [] ∧ t ≠ [] ∧ s <:+ a ∧ t <+: b := by
  obtain ⟨u, v, huv⟩ := h
  have hlen := congrArg List.length huv
  simp only [List.length_append] at hlen
  by_cases h1 : u.length + p.length ≤ a.length
  · left
    have hup : (u ++ p) <+: a ++ b := ⟨v, by simpa [List.append_assoc] using huv⟩
    have hua : (u ++ p) <+: a :=
      (List.isPrefix_append_of_length (by simp; omega)).mp hup
    exact List.IsInfix.trans ⟨u, [], by simp⟩ (within_of_pre hua)
  · by_cases h2 : a.length ≤ u.length
    · right; left
      have hpv : (p ++ v) <:+ a ++ b := ⟨u, by simpa [List.append_assoc] using huv⟩
      have hr := hpv.reverse
      have hab : (a ++ b).reverse = b.reverse ++ a.reverse :=
        List.reverse_append a b
      rw [hab] at hr
      have hrb : (p ++ v).reverse <+: b.reverse :=
        (List.isPrefix_append_of_length (by simp; omega)).mp hr
      have hsb : (p ++ v) <:+ b := by
        have := hrb.reverse
        simpa using this
      exact List.IsInfix.trans ⟨[], v, by simp⟩ (within_of_suf hsb)
    · right; right
      push_neg at h1 h2
      have hkp : a.length - u.length ≤ p.length := by omega
      have hs_len : (u ++ p.take (a.length - u.length)).length = a.length := by
        simp [List.length_take]
        omega
      have heq : (u ++ p.take (a.length - u.length)) ++
          (p.drop (a.length - u.length) ++ v) = a ++ b := by
        simp only [List.append_assoc]
        rw [← List.append_assoc (p.take (a.length - u.length))
          (p.drop (a.length - u.length)) v, List.take_append_drop]
        simpa [List.append_assoc] using huv
      obtain ⟨ha, hb⟩ := List.append_inj heq hs_len
      refine ⟨p.take (a.length - u.length), p.drop (a.length - u.length),
        List.take_append_drop _ _, ?_, ?_, ⟨u, ha⟩, ⟨v, hb⟩⟩
      · intro hnil
        have hlt : (p.take (a.length - u.length)).length = 0 := by
          rw [hnil]
          rfl
        rw [List.length_take] at hlt
        omega
      · intro hnil
        have hlt : (p.drop (a.length - u.length)).length = 0 := by
          rw [hnil]
          rfl
        rw [List.length_drop] at hlt
        omega

/-- The word the translation clause is tracked by: it occurs in the clause
but in no fixed template text of either prompt. -/
def hindiWord : List Char := "hindi".data

lemma not_within_of_occursB {pat s : List Char} (h : occursB pat s = false) :
    ¬ pat <:+: s := by
  intro hc
  have hb := (occursB_correct pat s).mpr hc
  rw [h] at hb
  exact Bool.noConfusion hb

/-- Any split of `"hindi"` into two nonempty halves: the left half ends in one
of its letters and the right half starts with one of its non-initial letters. -/
lemma hindi_split_shape {s t : List Char} (he : s ++ t = hindiWord)
    (hs : s ≠ []) (ht : t ≠ []) :
    (s.getLast? = some 'h' ∨ s.getLast? = some 'i' ∨ s.getLast? = some 'n' ∨
      s.getLast? = some 'd') ∧
    (t.head? = some 'i' ∨ t.head? = some 'n' ∨ t.head? = some 'd') := by
  have hs_eq : s = hindiWord.take s.length := by
    rw [← he, List.take_append_of_le_length (le_refl s.length),
      List.take_length]
  have ht_eq : t = hindiWord.drop s.length := by
    rw [← he, List.drop_append_of_le_length (le_refl s.length),
      List.drop_length, List.nil_append]
  have h1 : 1 ≤ s.length := List.length_pos.mpr hs
  have h4 : s.length ≤ 4 := by
    have h5 := congrArg List.length he
    have htp : 1 ≤ t.length := List.length_pos.mpr ht
    simp only [List.length_append] at h5
    have hW : hindiWord.length = 5 := rfl
    omega
  rw [hs_eq, ht_eq]
  set k := s.length with hk
  interval_cases k <;> exact ⟨by decide, by decide⟩

lemma no_straddle_hindi_left {a : List Char} (s t : List Char)
    (he : s ++ t = hindiWord) (hs : s ≠ []) (ht : t ≠ []) (hsuf : s <:+ a)
    (hlast : a.getLast? ≠ some 'h' ∧ a.getLast? ≠ some 'i' ∧
      a.getLast? ≠ some 'n' ∧ a.getLast? ≠ some 'd') : False := by
  obtain ⟨u, hu⟩ := hsuf
  have hGL : a.getLast? = s.getLast? := by
    rw [← hu]
    exact List.getLast?_append_of_ne_nil u hs
  have hshape := (hindi_split_shape he hs ht).1
  rw [← hGL] at hshape
  rcases hshape with h | h | h | h <;> simp [h] at hlast

lemma no_straddle_hindi_right {b : List Char} (s t : List Char)
    (he : s ++ t = hindiWord) (hs : s ≠ []) (ht : t ≠ []) (hpre : t <+: b)
    (hhead : b.head? ≠ some 'i' ∧ b.head? ≠ some 'n' ∧ b.head? ≠ some 'd') :
    False := by
  obtain ⟨v, hv⟩ := hpre
  have hH : b.head? = t.head? := by
    rw [← hv]
    exact List.head?_append_of_ne_nil t ht
  have hshape := (hindi_split_shape he hs ht).2
  rw [← hH] at hshape
  rcases hshape with h | h | h <;> simp [h] at hhead

/-- The word `"hindi"` does not occur in the common template tail
`nameLit ++ filename ++ textLit ++ truncated-text ++ newline` when it occurs
in neither the filename nor the truncated report text. -/
lemma hindi_not_in_tail (filename trunc : List Char)
    (hf : ¬ hindiWord <:+: filename) (htr : ¬ hindiWord <:+: trunc) :
    ¬ hindiWord <:+: nameLit ++ (filename ++ (textLit ++ (trunc ++ nlLit))) := by
  intro h
  rcases within_append_split h with h | h | ⟨s, t, he, hs, ht, hsuf, hpre⟩
  · exact not_within_of_occursB (by decide) h
  · rcases within_append_split h with h | h | ⟨s, t, he, hs, ht, hsuf, hpre⟩
    · exact hf h
    · rcases within_append_split h with h | h | ⟨s, t, he, hs, ht, hsuf, hpre⟩
      · exact not_within_of_occursB (by decide) h
      · rcases within_append_split h with h | h | ⟨s, t, he, hs, ht, hsuf, hpre⟩
        · exact htr h
        · exact not_within_of_occursB (by decide) h
        · exact no_straddle_hindi_right s t he hs ht hpre (by decide)
      · exact no_straddle_hindi_left s t he hs ht hsuf (by decide)
    · have hh : (textLit ++ (trunc ++ nlLit)).head? = some '\n' := by
        rw [List.head?_append_of_ne_nil _ (by decide)]
        rfl
      exact no_straddle_hindi_right s t he hs ht hpre (by rw [hh]; decide)
  · exact no_straddle_hindi_left s t he hs ht hsuf (by decide)

/-- The word `"hindi"` does not occur in the rendered standard-mode template
without the translation clause (filename and truncated text clean). -/
lemma hindi_not_in_std_raw (filename trunc : List Char)
    (hf : ¬ hindiWord <:+: filename) (htr : ¬ hindiWord <:+: trunc) :
    ¬ hindiWord <:+:
      stdHeader ++ (nameLit ++ (filename ++ (textLit ++ (trunc ++ nlLit)))) := by
  intro h
  rcases within_append_split h with h | h | ⟨s, t, he, hs, ht, hsuf, hpre⟩
  · exact not_within_of_occursB (by decide) h
  · exact hindi_not_in_tail filename trunc hf htr h
  · exact no_straddle_hindi_left s t he hs ht hsuf (by decide)

/-- The word `"hindi"` does not occur in the rendered Funshine template
without the translation clause (tone, filename and truncated text clean). -/
lemma hindi_not_in_fun_raw (tone filename trunc : List Char)
    (htone : ¬ hindiWord <:+: tone) (hf : ¬ hindiWord <:+: filename)
    (htr : ¬ hindiWord <:+: trunc) :
    ¬ hindiWord <:+:
      funHead ++ (tone ++ (funTail ++
        (nameLit ++ (filename ++ (textLit ++ (trunc ++ nlLit)))))) := by
  intro h
  rcases within_append_split h with h | h | ⟨s, t, he, hs, ht, hsuf, hpre⟩
  · exact not_within_of_occursB (by decide) h
  · rcases within_append_split h with h | h | ⟨s, t, he, hs, ht, hsuf, hpre⟩
    · exact htone h
    · rcases within_append_split h with h | h | ⟨s, t, he, hs, ht, hsuf, hpre⟩
      · exact not_within_of_occursB (by decide) h
      · exact hindi_not_in_tail filename trunc hf htr h
      · exact no_straddle_hindi_left s t he hs ht hsuf (by decide)
    · have hh : (funTail ++
          (nameLit ++ (filename ++ (textLit ++ (trunc ++ nlLit))))).head? =
          some ' ' := by
        rw [List.head?_append_of_ne_nil _ (by decide)]
        rfl
      exact no_straddle_hindi_right s t he hs ht hpre (by rw [hh]; decide)
  · exact no_straddle_hindi_left s t he hs ht hsuf (by decide)

lemma build_prompt_eq (text filename lang tone mode : List Char) :
    build_prompt text filename lang tone mode =
      if mode = stdMode then
        pyStrip (stdHeader ++ (if langIsHindi lang then hindiClause else []) ++
          nameLit ++ filename ++ textLit ++ truncate_report text ++ nlLit)
      else
        pyStrip (funHead ++ tone ++ funTail ++
          (if langIsHindi lang then hindiClause else []) ++ nameLit ++
          filename ++ textLit ++ truncate_report text ++ nlLit) := by
  unfold build_prompt
  by_cases hm : mode = stdMode <;> simp [hm]

lemma lang_hindi_true : langIsHindi "Hindi".data = true := rfl

lemma lang_english_false : langIsHindi "English".data = false := rfl

lemma hindi_in_clause : hindiWord <:+: hindiClause :=
  (occursB_correct _ _).mp (by decide)

/-- A segment placed between two chunks that both contain non-whitespace
survives the outer `strip` of the rendered template. -/
lemma clause_within_strip {A B : List Char}
    (hA : ∃ x ∈ A, pyIsSpace x = false) (hB : ∃ x ∈ B, pyIsSpace x = false) :
    hindiClause <:+: pyStrip (A ++ (hindiClause ++ B)) := by
  have hCB : ∃ x ∈ hindiClause ++ B, pyIsSpace x = false :=
    ⟨'T', List.mem_append_left _ (by decide), by decide⟩
  have h1 : stripR (A ++ (hindiClause ++ B)) = A ++ (hindiClause ++ stripR B) := by
    rw [stripR_append hCB, stripR_append hB]
  have h2 : pyStrip (A ++ (hindiClause ++ B)) =
      stripL A ++ (hindiClause ++ stripR B) := by
    unfold pyStrip
    rw [h1]
    exact stripL_append hA
  rw [h2]
  exact ⟨stripL A, stripR B, by simp [List.append_assoc]⟩

lemma trunc_not_hindi {text : List Char} (htext : ¬ hindiWord <:+: text) :
    ¬ hindiWord <:+: truncate_report text := fun h =>
  htext (List.IsInfix.trans h
    (within_of_pre ⟨text.drop 30000, List.take_append_drop _ _⟩))

/-- C9 (amended): for every text, filename, tone and mode, the prompt built
with language "Hindi" contains the translation instruction; the prompt built
with language "English" does not contain it, provided the instruction's
marker word "hindi" does not itself occur in the report text, the filename,
or the tone (if it does, the instruction can enter the prompt through the
embedded report text, so the unconditional claim fails). -/
theorem build_prompt_translation_clause (text filename tone mode : List Char) :
    hindiClause <:+: build_prompt text filename "Hindi".data tone mode ∧
    (¬ hindiWord <:+: text → ¬ hindiWord <:+: filename →
      ¬ hindiWord <:+: tone →
      ¬ hindiClause <:+: build_prompt text filename "English".data tone mode) := by
  constructor
  · rw [build_prompt_eq]
    by_cases hm : mode = stdMode
    · rw [if_pos hm,
        show (if langIsHindi "Hindi".data then hindiClause else []) =
          hindiClause from rfl]
      have hraw : stdHeader ++ hindiClause ++ nameLit ++ filename ++ textLit ++
          truncate_report text ++ nlLit =
          stdHeader ++ (hindiClause ++
            (nameLit ++ (filename ++ (textLit ++
              (truncate_report text ++ nlLit))))) := by
        simp [List.append_assoc]
      rw [hraw]
      exact clause_within_strip ⟨'Y', by decide, by decide⟩
        ⟨'R', List.mem_append_left _ (by decide), by decide⟩
    · rw [if_neg hm,
        show (if langIsHindi "Hindi".data then hindiClause else []) =
          hindiClause from rfl]
      have hraw : funHead ++ tone ++ funTail ++ hindiClause ++ nameLit ++
          filename ++ textLit ++ truncate_report text ++ nlLit =
          (funHead ++ tone ++ funTail) ++ (hindiClause ++
            (nameLit ++ (filename ++ (textLit ++
              (truncate_report text ++ nlLit))))) := by
        simp [List.append_assoc]
      rw [hraw]
      refine clause_within_strip
        ⟨'Y', List.mem_append_left _ (List.mem_append_left _ (by decide)),
          by decide⟩
        ⟨'R', List.mem_append_left _ (by decide), by decide⟩
  · intro htext hf htone hc
    have htr := trunc_not_hindi htext
    rw [build_prompt_eq] at hc
    by_cases hm : mode = stdMode
    · rw [if_pos hm,
        show (if langIsHindi "English".data then hindiClause else []) =
          ([] : List Char) from rfl] at hc
      have hw : hindiWord <:+:
          stdHeader ++ (nameLit ++ (filename ++ (textLit ++
            (truncate_report text ++ nlLit)))) := by
        have h1 := List.IsInfix.trans (List.IsInfix.trans hindi_in_clause hc)
          (pyStrip_within _)
        simpa [List.append_assoc] using h1
      exact hindi_not_in_std_raw filename (truncate_report text) hf htr hw
    · rw [if_neg hm,
        show (if langIsHindi "English".data then hindiClause else []) =
          ([] : List Char) from rfl] at hc
      have hw : hindiWord <:+:
          funHead ++ (tone ++ (funTail ++ (nameLit ++ (filename ++
            (textLit ++ (truncate_report text ++ nlLit)))))) := by
        have h1 := List.IsInfix.trans (List.IsInfix.trans hindi_in_clause hc)
          (pyStrip_within _)
        simpa [List.append_assoc] using h1
      exact hindi_not_in_fun_raw tone filename (truncate_report text)
        htone hf htr hw

/-- C9 counterexample: with language "English" the built prompt *can* contain
the translation instruction — it is enough that the uploaded report text
itself contains it, since the (truncated) report text is embedded verbatim.
So the claim's unconditional "with EN it never contains it" is false. -/
theorem build_prompt_en_contains_clause_cex :
    hindiClause <:+:
      build_prompt hindiClause "r.txt".data "English".data
        "Patient-Friendly".data stdMode := by
  rw [build_prompt_eq, if_pos rfl,
    show (if langIsHindi "English".data then hindiClause else []) =
      ([] : List Char) from rfl]
  have htr : truncate_report hindiClause = hindiClause :=
    List.take_of_length_le (by decide)
  rw [htr]
  have hraw : stdHeader ++ [] ++ nameLit ++ "r.txt".data ++ textLit ++
      hindiClause ++ nlLit =
      (stdHeader ++ nameLit ++ "r.txt".data ++ textLit) ++
        (hindiClause ++ nlLit) := by
    simp [List.append_assoc]
  rw [hraw]
  unfold pyStrip
  rw [stripR_append ⟨'T', List.mem_append_left _ (by decide), by decide⟩]
  rw [show stripR (hindiClause ++ nlLit) = hindiClause from by
    rw [stripR_append_ws (by decide)]
    decide]
  rw [stripL_append ⟨'Y', List.mem_append_left _ (List.mem_append_left _
    (List.mem_append_left _ (by decide))), by decide⟩]
  exact within_of_suf ⟨_, rfl⟩

/-- Witness for `build_prompt_translation_clause` at concrete inputs. -/
theorem build_prompt_translation_clause_witness :
    hindiClause <:+:
      build_prompt "report".data "r.txt".data "Hindi".data
        "Patient-Friendly".data stdMode ∧
    ¬ hindiClause <:+:
      build_prompt "report".data "r.txt".data "English".data
        "Patient-Friendly".data stdMode := by
  have h := build_prompt_translation_clause "report".data "r.txt".data
    "Patient-Friendly".data stdMode
  exact ⟨h.1, h.2 (by decide) (by decide) (by decide)⟩

/-- C4: the report text segment embedded by `build_prompt` is
`text[:30000]`: its length is exactly the 30000-character cap when the input
is at least that long, it is the input unchanged when the input is shorter,
and it is always a plain prefix of the input (a hard character cut, not
sentence-aware). -/
theorem truncate_report_cap (text : List Char) :
    (30000 ≤ text.length → (truncate_report text).length = 30000) ∧
    (text.length < 30000 → truncate_report text = text) ∧
    truncate_report text <+: text := by
  refine ⟨?_, ?_, ⟨text.drop 30000, List.take_append_drop _ _⟩⟩
  · intro h
    simp only [truncate_report, List.length_take]
    omega
  · intro h
    exact List.take_of_length_le (by omega)

/-- Witness for `truncate_report_cap` at concrete inputs. -/
theorem truncate_report_cap_witness :
    (truncate_report (List.replicate 30001 'a')).length = 30000 ∧
    truncate_report "ab".data = "ab".data := by
  constructor
  · exact (truncate_report_cap _).1 (by rw [List.length_replicate]; omega)
  · exact (truncate_report_cap _).2.1 (by rw [show ("ab".data).length = 2 from rfl]; omega)

lemma pyStrip_trunc_ws_invariant (P : List Char) {text wsfx : List Char}
    (hws : ∀ c ∈ wsfx, pyIsSpace c = true) :
    pyStrip (P ++ truncate_report (text ++ wsfx) ++ nlLit) =
      pyStrip (P ++ truncate_report text ++ nlLit) := by
  by_cases hlen : 30000 ≤ text.length
  · have ht : truncate_report (text ++ wsfx) = truncate_report text := by
      unfold truncate_report
      rw [List.take_append_of_le_length hlen]
    rw [ht]
  · push_neg at hlen
    have h1 : truncate_report (text ++ wsfx) =
        text ++ wsfx.take (30000 - text.length) := by
      unfold truncate_report
      rw [List.take_append_eq_append_take, List.take_of_length_le (by omega)]
    have h2 : truncate_report text = text := List.take_of_length_le (by omega)
    have hnl : ∀ c ∈ nlLit, pyIsSpace c = true := by decide
    have hL : P ++ (text ++ wsfx.take (30000 - text.length)) ++ nlLit =
        (P ++ text) ++ (wsfx.take (30000 - text.length) ++ nlLit) := by
      simp [List.append_assoc]
    have hR : P ++ text ++ nlLit = (P ++ text) ++ nlLit := by
      simp [List.append_assoc]
    unfold pyStrip
    rw [h1, h2, hL, hR, stripR_append_ws ?_, stripR_append_ws hnl]
    intro c hcm
    rcases List.mem_append.mp hcm with hm1 | hm1
    · exact hws c (List.mem_of_mem_take hm1)
    · exact hnl c hm1

/-- C10: the string returned by `build_prompt` is the rendered template with
both margins stripped: it never begins nor ends with a whitespace character,
and appending only-whitespace to the report text does not change the output
(the truncated report segment ends the template, so its trailing whitespace
is removed). -/
theorem build_prompt_stripped (text filename lang tone mode : List Char) :
    (∀ c, (build_prompt text filename lang tone mode).head? = some c →
      pyIsSpace c = false) ∧
    (∀ c, (build_prompt text filename lang tone mode).getLast? = some c →
      pyIsSpace c = false) ∧
    (∀ wsfx, (∀ c ∈ wsfx, pyIsSpace c = true) →
      build_prompt (text ++ wsfx) filename lang tone mode =
        build_prompt text filename lang tone mode) := by
  refine ⟨fun c hc => pyStrip_head_not_ws hc,
    fun c hc => pyStrip_getLast_not_ws hc, ?_⟩
  intro wsfx hws
  rw [build_prompt_eq, build_prompt_eq]
  by_cases hm : mode = stdMode
  · rw [if_pos hm, if_pos hm]
    exact pyStrip_trunc_ws_invariant _ hws
  · rw [if_neg hm, if_neg hm]
    exact pyStrip_trunc_ws_invariant _ hws

/-- Witness for `build_prompt_stripped` at concrete inputs. -/
theorem build_prompt_stripped_witness :
    pyIsSpace 'Y' = false ∧ pyIsSpace 'i' = false ∧
    build_prompt ("hi".data ++ " \n".data) "r.txt".data "English".data
        "Patient-Friendly".data stdMode =
      build_prompt "hi".data "r.txt".data "English".data
        "Patient-Friendly".data stdMode := by
  have h := build_prompt_stripped "hi".data "r.txt".data "English".data
    "Patient-Friendly".data stdMode
  exact ⟨h.1 'Y' (by decide), h.2.1 'i' (by decide),
    h.2.2 " \n".data (by decide)⟩

/-- C5: the prompt built for a non-primary variant equals the already-built
primary prompt with the instruction suffix appended, so the primary prompt's
instructions are a prefix (hence a contiguous segment) of every variant
prompt; and the variant's summary is an independent fresh invocation of the
Summarization Client on that variant prompt. -/
theorem variant_prompt_superset
    (text filename lang tone mode suffix : List Char) :
    build_variant_prompt text filename lang tone mode suffix =
      build_prompt text filename lang tone mode ++ suffix ∧
    build_prompt text filename lang tone mode <+:
      build_variant_prompt text filename lang tone mode suffix ∧
    build_prompt text filename lang tone mode <:+:
      build_variant_prompt text filename lang tone mode suffix ∧
    (∀ outcome, summarize_variant text filename lang tone mode suffix outcome =
      call_gemini (build_variant_prompt text filename lang tone mode suffix)
        outcome) :=
  ⟨rfl, ⟨suffix, rfl⟩, within_of_pre ⟨suffix, rfl⟩, fun _ => rfl⟩

/-- C6 counterexample: the dispatch is *not* case-insensitive.  The filename
"REPORT.PDF" has extension "pdf" up to case (its lower-casing ends in
".pdf"), yet `fname.endswith(".pdf")` is case-sensitive, so the file is
routed to image OCR, not to PDF extraction. -/
theorem route_not_case_insensitive_cex :
    pyEndswith ".pdf".data (asciiLower "REPORT.PDF".data) = true ∧
    route "REPORT.PDF".data = FileKind.image ∧
    FileKind.image ≠ FileKind.pdf :=
  ⟨by decide, by decide, by decide⟩

/-- C6 (amended): the file kind is decided by a *case-sensitive* suffix match
on the filename, with no content inspection: names ending in ".pdf" (exact
case) route to PDF extraction, otherwise names ending in ".txt" route to
UTF-8 text decoding, and every other name — ".png"/".jpg"/".jpeg" as well as
unrecognized or differently-cased extensions — routes to image OCR. -/
theorem route_by_exact_suffix (fname : List Char) :
    ((".pdf".data <:+ fname) → route fname = FileKind.pdf) ∧
    (¬ (".pdf".data <:+ fname) → (".txt".data <:+ fname) →
      route fname = FileKind.txt) ∧
    (¬ (".pdf".data <:+ fname) → ¬ (".txt".data <:+ fname) →
      route fname = FileKind.image) := by
  unfold route pyEndswith
  refine ⟨fun h => ?_, fun h1 h2 => ?_, fun h1 h2 => ?_⟩
  · rw [if_pos (by simpa using h)]
  · rw [if_neg (by simpa using h1), if_pos (by simpa using h2)]
  · rw [if_neg (by simpa using h1), if_neg (by simpa using h2)]

/-- Witness for `route_by_exact_suffix` at concrete filenames. -/
theorem route_by_exact_suffix_witness :
    route "a.pdf".data = FileKind.pdf ∧ route "a.txt".data = FileKind.txt ∧
    route "a.png".data = FileKind.image :=
  ⟨(route_by_exact_suffix _).1 (by decide),
    (route_by_exact_suffix _).2.1 (by decide) (by decide),
    (route_by_exact_suffix _).2.2 (by decide) (by decide)⟩

/-- C2: for every supported file kind and every input, `extract` is a total
function into strings (it has no exception outcome), and every failure mode
becomes the descriptive placeholder of src/app.py: missing optional
dependencies, a raising PDF parse, an all-whitespace PDF text layer, a
raising image decode/OCR, whitespace-only OCR output — while the text branch
decodes unconditionally. -/
theorem extract_total_sentinels (fname : List Char) (deps : Bool)
    (pdfOut : Except (List Char) (List (Option (List Char))))
    (ocrOut : Except (List Char) (List Char)) (data : List Nat) :
    (route fname = FileKind.pdf → deps = false →
      extract fname deps pdfOut ocrOut data =
        strCodes "[pdfplumber missing]".data) ∧
    (route fname = FileKind.pdf → deps = true →
      ∀ e, pdfOut = Except.error e →
      extract fname deps pdfOut ocrOut data =
        strCodes ("[PDF extraction error: ".data ++ e ++ "]".data)) ∧
    (route fname = FileKind.pdf → deps = true →
      ∀ pages, pdfOut = Except.ok pages →
      pyStrip (List.intercalate "\n\n".data
        (pages.map (fun p => p.getD []))) = [] →
      extract fname deps pdfOut ocrOut data =
        strCodes "[No readable text]".data) ∧
    (route fname = FileKind.image → deps = false →
      extract fname deps pdfOut ocrOut data =
        strCodes "[OCR not available]".data) ∧
    (route fname = FileKind.image → deps = true →
      ∀ e, ocrOut = Except.error e →
      extract fname deps pdfOut ocrOut data =
        strCodes ("[Image OCR error: ".data ++ e ++ "]".data)) ∧
    (route fname = FileKind.image → deps = true →
      ∀ t, ocrOut = Except.ok t → pyStrip t = [] →
      extract fname deps pdfOut ocrOut data =
        strCodes "[No readable text detected]".data) ∧
    (route fname = FileKind.txt →
      extract fname deps pdfOut ocrOut data = pyDecodeIgnore data) := by
  unfold extract extract_text_from_pdf_bytes extract_text_from_image_bytes
  refine ⟨fun hr hd => ?_, fun hr hd e he => ?_, fun hr hd pages hp hj => ?_,
    fun hr hd => ?_, fun hr hd e he => ?_, fun hr hd t ht hs => ?_,
    fun hr => ?_⟩
  · rw [hr, hd]
    rfl
  · rw [hr, hd, he]
    rfl
  · rw [hr, hd, hp]
    simp [hj]
  · rw [hr, hd]
    rfl
  · rw [hr, hd, he]
    rfl
  · rw [hr, hd, ht]
    simp [hs]
  · rw [hr]

/-- Witness for `extract_total_sentinels` at concrete inputs. -/
theorem extract_total_sentinels_witness :
    extract "a.pdf".data false (Except.ok []) (Except.ok []) [] =
      strCodes "[pdfplumber missing]".data ∧
    extract "a.pdf".data true (Except.error "boom".data) (Except.ok []) [] =
      strCodes ("[PDF extraction error: ".data ++ "boom".data ++ "]".data) ∧
    extract "a.pdf".data true (Except.ok [none]) (Except.ok []) [] =
      strCodes "[No readable text]".data ∧
    extract "a.png".data false (Except.ok []) (Except.ok []) [] =
      strCodes "[OCR not available]".data ∧
    extract "a.png".data true (Except.ok []) (Except.error "err".data) [] =
      strCodes ("[Image OCR error: ".data ++ "err".data ++ "]".data) ∧
    extract "a.png".data true (Except.ok []) (Except.ok "  ".data) [] =
      strCodes "[No readable text detected]".data ∧
    extract "a.txt".data true (Except.ok []) (Except.ok []) [0xFF, 0x61] =
      pyDecodeIgnore [0xFF, 0x61] :=
  ⟨(extract_total_sentinels _ _ _ _ _).1 (by decide) rfl,
    (extract_total_sentinels _ _ _ _ _).2.1 (by decide) rfl _ rfl,
    (extract_total_sentinels _ _ _ _ _).2.2.1 (by decide) rfl _ rfl (by decide),
    (extract_total_sentinels _ _ _ _ _).2.2.2.1 (by decide) rfl,
    (extract_total_sentinels _ _ _ _ _).2.2.2.2.1 (by decide) rfl _ rfl,
    (extract_total_sentinels _ _ _ _ _).2.2.2.2.2.1 (by decide) rfl _ rfl
      (by decide),
    (extract_total_sentinels _ _ _ _ _).2.2.2.2.2.2 (by decide)⟩

/-- C3: `call_gemini` is a total function into strings and normalizes exactly
as the source does: a raised transport/API exception becomes the sentinel
embedding the failure reason; a present non-empty direct text field is
returned as is; otherwise the first candidate's first content part's text is
returned when present; otherwise the fixed "no output" sentinel. -/
theorem call_gemini_normalization (prompt : List Char)
    (outcome : Except (List Char) GeminiResponse) :
    (∀ e, outcome = Except.error e →
      call_gemini prompt outcome = "[Gemini Error: ".data ++ e ++ "]".data) ∧
    (∀ r t, outcome = Except.ok r → r.text = some t → t ≠ [] →
      call_gemini prompt outcome = t) ∧
    (∀ r, outcome = Except.ok r → truthyText r.text = false →
      ∀ cand rest part prest t, r.candidates = cand :: rest →
        cand.content.parts = part :: prest → part.text = some t →
        call_gemini prompt outcome = t) ∧
    (∀ r, outcome = Except.ok r → truthyText r.text = false →
      (r.candidates = [] ∨
        (∃ cand rest, r.candidates = cand :: rest ∧
          (cand.content.parts = [] ∨
            (∃ part prest, cand.content.parts = part :: prest ∧
              part.text = none)))) →
      call_gemini prompt outcome = "[No response from Gemini]".data) := by
  unfold call_gemini
  refine ⟨fun e he => ?_, fun r t hr ht hne => ?_,
    fun r hr htr cand rest part prest t hc hp hpt => ?_,
    fun r hr htr hcase => ?_⟩
  · rw [he]
  · rw [hr]
    simp [ht, truthyText, List.isEmpty_iff, hne]
  · rw [hr]
    simp [htr, hc, hp, hpt]
  · rw [hr]
    rcases hcase with h | ⟨cand, rest, hc, h2⟩
    · simp [htr, h]
    · rcases h2 with hp | ⟨part, prest, hp, hpt⟩
      · simp [htr, hc, hp]
      · simp [htr, hc, hp, hpt]

/-- Witness for `call_gemini_normalization` at concrete outcomes. -/
theorem call_gemini_normalization_witness :
    call_gemini "p".data (Except.error "net down".data) =
      "[Gemini Error: ".data ++ "net down".data ++ "]".data ∧
    call_gemini "p".data (Except.ok ⟨some "ok".data, []⟩) = "ok".data ∧
    call_gemini "p".data
      (Except.ok ⟨none, [⟨⟨[⟨some "cand".data⟩]⟩⟩]⟩) = "cand".data ∧
    call_gemini "p".data (Except.ok ⟨some [], []⟩) =
      "[No response from Gemini]".data :=
  ⟨(call_gemini_normalization "p".data
      (Except.error "net down".data)).1 _ rfl,
    (call_gemini_normalization "p".data
      (Except.ok ⟨some "ok".data, []⟩)).2.1 _ _ rfl rfl (by decide),
    (call_gemini_normalization "p".data
      (Except.ok ⟨none, [⟨⟨[⟨some "cand".data⟩]⟩⟩]⟩)).2.2.1 _ rfl rfl
      _ [] _ [] _ rfl rfl rfl,
    (call_gemini_normalization "p".data
      (Except.ok ⟨some [], []⟩)).2.2.2 _ rfl rfl (Or.inl rfl)⟩

/-- C1: the Safety Flagger returns true exactly when at least one configured
keyword occurs, case-insensitively, as a contiguous substring of the text;
in particular it returns false on the empty string (spec-modelled: the
flagger is absent from src/app.py). -/
theorem flag_iff_keyword (text : List Char) :
    (flag text = true ↔ ∃ k ∈ keywords, k <:+: asciiLower text) ∧
    flag [] = false := by
  constructor
  · unfold flag
    rw [List.any_eq_true]
    constructor
    · rintro ⟨k, hk, hB⟩
      exact ⟨k, hk, (occursB_correct _ _).mp hB⟩
    · rintro ⟨k, hk, hin⟩
      exact ⟨k, hk, (occursB_correct _ _).mpr hin⟩
  · decide


lemma utf8DecodeP_nil (err : List Nat) : utf8DecodeP err [] = [] := by
  conv_lhs => rw [utf8DecodeP.eq_def]

/-- One unfolding step of the decoder on a nonempty byte list. -/
lemma utf8DecodeP_cons (err : List Nat) (b0 : Nat) (r0 : List Nat) :
    utf8DecodeP err (b0 :: r0) =
      if b0 < 0x80 then b0 :: utf8DecodeP err r0
      else if b0 < 0xC2 then err ++ utf8DecodeP err r0
      else if b0 < 0xE0 then
        match r0 with
        | [] => err
        | b1 :: r1 =>
          if isCont b1 then
            ((b0 - 0xC0) * 0x40 + (b1 - 0x80)) :: utf8DecodeP err r1
          else err ++ utf8DecodeP err (b1 :: r1)
      else if b0 < 0xF0 then
        match r0 with
        | [] => err
        | b1 :: r1 =>
          if okSecond3 b0 b1 then
            match r1 with
            | [] => err
            | b2 :: r2 =>
              if isCont b2 then
                ((b0 - 0xE0) * 0x1000 + (b1 - 0x80) * 0x40 + (b2 - 0x80)) ::
                  utf8DecodeP err r2
              else err ++ utf8DecodeP err (b2 :: r2)
          else err ++ utf8DecodeP err (b1 :: r1)
      else if b0 < 0xF5 then
        match r0 with
        | [] => err
        | b1 :: r1 =>
          if okSecond4 b0 b1 then
            match r1 with
            | [] => err
            | b2 :: r2 =>
              if isCont b2 then
                match r2 with
                | [] => err
                | b3 :: r3 =>
                  if isCont b3 then
                    ((b0 - 0xF0) * 0x40000 + (b1 - 0x80) * 0x1000 +
                      (b2 - 0x80) * 0x40 + (b3 - 0x80)) :: utf8DecodeP err r3
                  else err ++ utf8DecodeP err (b3 :: r3)
              else err ++ utf8DecodeP err (b2 :: r2)
          else err ++ utf8DecodeP err (b1 :: r1)
      else err ++ utf8DecodeP err r0 := by
  conv_lhs => rw [utf8DecodeP.eq_def]

lemma decode_ascii (err : List Nat) (b0 : Nat) (bs : List Nat) (h : b0 < 0x80) :
    utf8DecodeP err (b0 :: bs) = b0 :: utf8DecodeP err bs := by
  rw [utf8DecodeP_cons, if_pos h]

lemma decode_invalid_lead (err : List Nat) (b0 : Nat) (bs : List Nat)
    (h : (0x80 ≤ b0 ∧ b0 < 0xC2) ∨ 0xF5 ≤ b0) :
    utf8DecodeP err (b0 :: bs) = err ++ utf8DecodeP err bs := by
  rcases h with ⟨h1, h2⟩ | h1
  · rw [utf8DecodeP_cons, if_neg (show ¬ b0 < 0x80 by omega), if_pos h2]
  · rw [utf8DecodeP_cons, if_neg (show ¬ b0 < 0x80 by omega),
      if_neg (show ¬ b0 < 0xC2 by omega), if_neg (show ¬ b0 < 0xE0 by omega),
      if_neg (show ¬ b0 < 0xF0 by omega), if_neg (show ¬ b0 < 0xF5 by omega)]

lemma decode_two (err : List Nat) (b0 b1 : Nat) (bs : List Nat)
    (h0 : 0xC2 ≤ b0) (h0' : b0 < 0xE0) (h1 : isCont b1) :
    utf8DecodeP err (b0 :: b1 :: bs) =
      ((b0 - 0xC0) * 0x40 + (b1 - 0x80)) :: utf8DecodeP err bs := by
  rw [utf8DecodeP_cons, if_neg (show ¬ b0 < 0x80 by omega),
    if_neg (show ¬ b0 < 0xC2 by omega), if_pos h0']
  show (if isCont b1 then
      ((b0 - 0xC0) * 0x40 + (b1 - 0x80)) :: utf8DecodeP err bs
    else err ++ utf8DecodeP err (b1 :: bs)) = _
  rw [if_pos h1]

lemma decode_three (err : List Nat) (b0 b1 b2 : Nat) (bs : List Nat)
    (h0 : 0xE0 ≤ b0) (h0' : b0 < 0xF0) (h1 : okSecond3 b0 b1)
    (h2 : isCont b2) :
    utf8DecodeP err (b0 :: b1 :: b2 :: bs) =
      ((b0 - 0xE0) * 0x1000 + (b1 - 0x80) * 0x40 + (b2 - 0x80)) ::
        utf8DecodeP err bs := by
  rw [utf8DecodeP_cons, if_neg (show ¬ b0 < 0x80 by omega),
    if_neg (show ¬ b0 < 0xC2 by omega), if_neg (show ¬ b0 < 0xE0 by omega),
    if_pos h0']
  show (if okSecond3 b0 b1 then
      (if isCont b2 then
        ((b0 - 0xE0) * 0x1000 + (b1 - 0x80) * 0x40 + (b2 - 0x80)) ::
          utf8DecodeP err bs
      else err ++ utf8DecodeP err (b2 :: bs))
    else err ++ utf8DecodeP err (b1 :: b2 :: bs)) = _
  rw [if_pos h1, if_pos h2]

lemma decode_four (err : List Nat) (b0 b1 b2 b3 : Nat) (bs : List Nat)
    (h0 : 0xF0 ≤ b0) (h0' : b0 < 0xF5) (h1 : okSecond4 b0 b1)
    (h2 : isCont b2) (h3 : isCont b3) :
    utf8DecodeP err (b0 :: b1 :: b2 :: b3 :: bs) =
      ((b0 - 0xF0) * 0x40000 + (b1 - 0x80) * 0x1000 + (b2 - 0x80) * 0x40 +
        (b3 - 0x80)) :: utf8DecodeP err bs := by
  rw [utf8DecodeP_cons, if_neg (show ¬ b0 < 0x80 by omega),
    if_neg (show ¬ b0 < 0xC2 by omega), if_neg (show ¬ b0 < 0xE0 by omega),
    if_neg (show ¬ b0 < 0xF0 by omega), if_pos h0']
  show (if okSecond4 b0 b1 then
      (if isCont b2 then
        (if isCont b3 then
          ((b0 - 0xF0) * 0x40000 + (b1 - 0x80) * 0x1000 + (b2 - 0x80) * 0x40 +
            (b3 - 0x80)) :: utf8DecodeP err bs
        else err ++ utf8DecodeP err (b3 :: bs))
      else err ++ utf8DecodeP err (b2 :: b3 :: bs))
    else err ++ utf8DecodeP err (b1 :: b2 :: b3 :: bs)) = _
  rw [if_pos h1, if_pos h2, if_pos h3]

/-- Decoding the UTF-8 encoding of one scalar value, followed by anything,
yields that scalar value followed by the decode of the rest. -/
lemma utf8DecodeP_encChar (err : List Nat) {c : Nat} (h : validScalar c)
    (bs : List Nat) :
    utf8DecodeP err (utf8EncodeChar c ++ bs) = c :: utf8DecodeP err bs := by
  have hv : c < 0xD800 ∨ (0xE000 ≤ c ∧ c < 0x110000) := h
  unfold utf8EncodeChar
  by_cases h1 : c < 0x80
  · rw [if_pos h1, List.cons_append, List.nil_append, decode_ascii err c bs h1]
  · rw [if_neg h1]
    by_cases h2 : c < 0x800
    · rw [if_pos h2, List.cons_append, List.cons_append, List.nil_append,
        decode_two err (0xC0 + c / 0x40) (0x80 + c % 0x40) bs
          (show 0xC2 ≤ 0xC0 + c / 0x40 by omega)
          (show 0xC0 + c / 0x40 < 0xE0 by omega)
          (show isCont (0x80 + c % 0x40) from by unfold isCont; omega)]
      congr 1
      omega
    · rw [if_neg h2]
      by_cases h3 : c < 0x10000
      · rw [if_pos h3, List.cons_append, List.cons_append, List.cons_append,
          List.nil_append,
          decode_three err (0xE0 + c / 0x1000) (0x80 + (c / 0x40) % 0x40)
            (0x80 + c % 0x40) bs
            (show 0xE0 ≤ 0xE0 + c / 0x1000 by omega)
            (show 0xE0 + c / 0x1000 < 0xF0 by omega)
            (show okSecond3 (0xE0 + c / 0x1000) (0x80 + (c / 0x40) % 0x40)
              from by unfold okSecond3; omega)
            (show isCont (0x80 + c % 0x40) from by unfold isCont; omega)]
        congr 1
        omega
      · rw [if_neg h3, List.cons_append, List.cons_append, List.cons_append,
          List.cons_append, List.nil_append,
          decode_four err (0xF0 + c / 0x40000) (0x80 + (c / 0x1000) % 0x40)
            (0x80 + (c / 0x40) % 0x40) (0x80 + c % 0x40) bs
            (show 0xF0 ≤ 0xF0 + c / 0x40000 by omega)
            (show 0xF0 + c / 0x40000 < 0xF5 by omega)
            (show okSecond4 (0xF0 + c / 0x40000) (0x80 + (c / 0x1000) % 0x40)
              from by unfold okSecond4; omega)
            (show isCont (0x80 + (c / 0x40) % 0x40) from by
              unfold isCont; omega)
            (show isCont (0x80 + c % 0x40) from by unfold isCont; omega)]
        congr 1
        omega

/-- Decode-after-encode is the identity on sequences of scalar values, for
any error handler. -/
lemma utf8DecodeP_encode (err : List Nat) (cs : List Nat)
    (h : ∀ c ∈ cs, validScalar c) :
    utf8DecodeP err (utf8Encode cs) = cs := by
  induction cs with
  | nil =>
    rw [utf8Encode, utf8DecodeP_nil]
  | cons c cs ih =>
    rw [utf8Encode, utf8DecodeP_encChar err (h c (List.mem_cons_self c cs)),
      ih (fun x hx => h x (List.mem_cons_of_mem c hx))]

/-- C7 counterexample: the text branch uses `errors="ignore"`, not a
replacing decode.  On the single undecodable byte `0xFF`, extraction returns
the empty string, whereas the replacing decode the claim describes returns
U+FFFD — so "replacing undecodable byte sequences" is false for this code. -/
theorem txt_decode_not_replace_cex :
    extract "a.txt".data true (Except.ok []) (Except.ok []) [0xFF] = [] ∧
    pyDecodeReplace [0xFF] = [0xFFFD] ∧
    extract "a.txt".data true (Except.ok []) (Except.ok []) [0xFF] ≠
      pyDecodeReplace [0xFF] := by
  have h1 : extract "a.txt".data true (Except.ok []) (Except.ok [])
      [0xFF] = [] := by
    unfold extract
    rw [show route "a.txt".data = FileKind.txt from by decide]
    unfold pyDecodeIgnore
    rw [decode_invalid_lead [] 0xFF [] (Or.inr (by omega)), utf8DecodeP_nil]
    rfl
  have h2 : pyDecodeReplace [0xFF] = [0xFFFD] := by
    unfold pyDecodeReplace
    rw [decode_invalid_lead [0xFFFD] 0xFF [] (Or.inr (by omega)),
      utf8DecodeP_nil]
    rfl
  refine ⟨h1, h2, ?_⟩
  rw [h1, h2]
  decide

/-- C7 (amended): the text branch decodes the raw bytes as UTF-8 with
`errors="ignore"`: it is a plain total function (no exception outcome
exists), and an undecodable lead byte is dropped from the output — in
contrast, the replacing decode inserts U+FFFD in its place. -/
theorem txt_extract_ignore_decode (fname : List Char) (deps : Bool)
    (pdfOut : Except (List Char) (List (Option (List Char))))
    (ocrOut : Except (List Char) (List Char)) (data : List Nat)
    (hr : route fname = FileKind.txt) :
    extract fname deps pdfOut ocrOut data = pyDecodeIgnore data ∧
    (∀ b, (0x80 ≤ b ∧ b < 0xC2) ∨ 0xF5 ≤ b →
      pyDecodeIgnore (b :: data) = pyDecodeIgnore data ∧
      pyDecodeReplace (b :: data) = 0xFFFD :: pyDecodeReplace data) := by
  refine ⟨?_, fun b hb => ⟨?_, ?_⟩⟩
  · unfold extract
    rw [hr]
  · unfold pyDecodeIgnore
    rw [decode_invalid_lead [] b data hb, List.nil_append]
  · unfold pyDecodeReplace
    rw [decode_invalid_lead [0xFFFD] b data hb]
    rfl

/-- Witness for `txt_extract_ignore_decode` at concrete inputs. -/
theorem txt_extract_ignore_decode_witness :
    extract "a.txt".data true (Except.ok []) (Except.ok []) [0x61] =
      pyDecodeIgnore [0x61] ∧
    pyDecodeIgnore (0xFF :: [0x61]) = pyDecodeIgnore [0x61] ∧
    pyDecodeReplace (0xFF :: [0x61]) = 0xFFFD :: pyDecodeReplace [0x61] := by
  have h := txt_extract_ignore_decode "a.txt".data true (Except.ok [])
    (Except.ok []) [0x61] (by decide)
  exact ⟨h.1, (h.2 0xFF (Or.inr (by omega))).1,
    (h.2 0xFF (Or.inr (by omega))).2⟩

/-- C8: extracting the UTF-8 encoding of a string as a text-kind input
returns exactly that string — decode after encode is the identity on
sequences of Unicode scalar values, with no trimming, truncation or
alteration. -/
theorem extract_txt_roundtrip (fname : List Char) (deps : Bool)
    (pdfOut : Except (List Char) (List (Option (List Char))))
    (ocrOut : Except (List Char) (List Char)) (cs : List Nat)
    (hr : route fname = FileKind.txt) (h : ∀ c ∈ cs, validScalar c) :
    extract fname deps pdfOut ocrOut (utf8Encode cs) = cs := by
  unfold extract
  rw [hr]
  exact utf8DecodeP_encode [] cs h

/-- Witness for `extract_txt_roundtrip` on a concrete string with one-, two-
and four-byte characters. -/
theorem extract_txt_roundtrip_witness :
    extract "a.txt".data true (Except.ok []) (Except.ok [])
      (utf8Encode [0x48, 0x20AC, 0x1F600]) = [0x48, 0x20AC, 0x1F600] :=
  extract_txt_roundtrip "a.txt".data true (Except.ok []) (Except.ok [])
    [0x48, 0x20AC, 0x1F600] (by decide) (by decide)
